import Mathlib

/-!
Shallow embedding of tsuru's volume subsystem (src/volume/volume.go).

The file models the entities (`Volume`, `VolumeBind`), the external
collaborators the spec scopes out (pool/team registries, the configuration
store, the mongo-backed document store) as explicit values, and the
operations `Validate`, `Save`, `BindApp`, `UnbindApp`, `Binds`,
`ListByApp` and `Load` as pure functions over that state.  Go's receiver
mutation in `Validate` is made explicit: each operation returns the
resulting receiver and/or store alongside its `Except` result.
-/

/-- Generic configuration value, the model of Go's `interface{}` tree that
`config.Get` returns after YAML parsing: scalars, lists, and string-keyed
mappings (`map[string]interface{}`). -/
inductive ConfigVal where
  | str (s : String)
  | boolean (b : Bool)
  | num (n : Int)
  | vlist (xs : List ConfigVal)
  | vmap (entries : List (String × ConfigVal))

/-- The Go dynamic type name `%T` would print for a `ConfigVal`. -/
def GoTypeName : ConfigVal → String
  | .str _ => "string"
  | .boolean _ => "bool"
  | .num _ => "int"
  | .vlist _ => "[]interface \x7b\x7d"
  | .vmap _ => "map[string]interface \x7b\x7d"

/-- Modelled from the spec: `internalConfig.ConvertEntries` (repository code
outside src/) normalizes the YAML-decoded tree so that mappings are
string-keyed; on our already string-keyed `ConfigVal` tree it is the
identity. The spec describes the config lookup as yielding a "generic
nested value" on which the caller performs the "must be a string-keyed
mapping" type check. -/
def ConvertEntries (v : ConfigVal) : ConfigVal := v

/-- Does the first character list start with the second? -/
def charsStartWith : List Char → List Char → Bool
  | _, [] => true
  | [], _ :: _ => false
  | a :: as, b :: bs => decide (a = b) && charsStartWith as bs

/-- Does `pat` occur as a contiguous run inside `s`? -/
def charsContain (s pat : List Char) : Bool :=
  match s with
  | [] => charsStartWith [] pat
  | _ :: rest => charsStartWith s pat || charsContain rest pat

/-- Substring test: `pat` occurs somewhere in `s`. -/
def strContains (s pat : String) : Bool :=
  charsContain s.data pat.data

/-- Go: `type BindMode string`. -/
abbrev BindMode := String

/-- Go: `BindModeReadOnly = BindMode("ro")`. -/
def BindModeReadOnly : BindMode := "ro"

/-- Go: `BindModeReadWrite = BindMode("rw")`. -/
def BindModeReadWrite : BindMode := "rw"

/-- Go struct `VolumePlan`: `Name string`, `Opts map[string]interface{}`.
The nil and the empty map are identified as `[]`. -/
structure VolumePlan where
  Name : String
  Opts : List (String × ConfigVal)

/-- Go struct `VolumeBindID`: the composite `_id` of a bind record. -/
structure VolumeBindID where
  App : String
  MountPoint : String
  Volume : String
deriving DecidableEq

/-- Go struct `VolumeBind`: `ID VolumeBindID` (bson `_id`), `Mode BindMode`. -/
structure VolumeBind where
  ID : VolumeBindID
  Mode : BindMode
deriving DecidableEq

/-- Go struct `Volume`.  `Name` is the bson `_id`; `Opts` carries bson
`,omitempty`, so the nil map (`none`) and a present map are distinguished
and an empty map is dropped when the record is marshalled. -/
structure Volume where
  Name : String
  Pool : String
  Plan : VolumePlan
  TeamOwner : String
  Status : String
  Opts : Option (List (String × String))

/-- Modelled from the spec: a pool as the pool registry resolves it — a
name together with its provisioner lookup, which may itself fail
(`ProvisionerResolutionError`), hence the `Option`. -/
structure Pool where
  Name : String
  Provisioner : Option String

/-- Go: `pool.GetProvisioner()`; `none` models the lookup failing. -/
def Pool.GetProvisioner (p : Pool) : Option String := p.Provisioner

/-- Modelled from the spec: the external collaborators of §1 — the
pool/provisioner registry, the team registry and the configuration store —
as finite lookup tables. -/
structure Env where
  pools : List Pool
  teams : List String
  config : List (String × ConfigVal)

/-- Modelled from the spec: `provision.GetPoolByName`; `none` is the
lookup failing (`PoolResolutionError`). -/
def Env.GetPoolByName (env : Env) (name : String) : Option Pool :=
  env.pools.find? (fun p => decide (p.Name = name))

/-- Modelled from the spec: `auth.GetTeam`; `none` is the lookup failing
(`TeamResolutionError`). -/
def Env.GetTeam (env : Env) (name : String) : Option String :=
  if name ∈ env.teams then some name else none

/-- Modelled from the spec: `config.Get`; `none` is the key being absent. -/
def Env.configGet (env : Env) (key : String) : Option ConfigVal :=
  (env.config.find? (fun p => decide (p.1 = key))).map (fun p => p.2)

/-- The error taxonomy of volume.go: its three sentinel errors
(`ErrVolumeNotFound`, `ErrVolumeAlreadyBound`, `ErrVolumeBindNotFound`),
the empty-name and invalid-plan-opts / invalid-bind-mode message errors it
constructs, and the wrapped lookup failures it propagates. -/
inductive VolumeError where
  | emptyName
  | poolNotFound (pool : String)
  | teamNotFound (team : String)
  | provisionerError (pool : String)
  | configNotFound (key : String)
  | invalidPlanOpts (msg : String)
  | invalidBindMode (msg : String)
  | alreadyBound
  | bindNotFound
  | volumeNotFound
deriving DecidableEq

/-- Go: `volumePlanKey(planName, provisioner)` =
`fmt.Sprintf("volume-plans:%s:%s", ...)`. -/
def volumePlanKey (planName provisioner : String) : String :=
  "volume-plans:" ++ planName ++ ":" ++ provisioner

/-- The message of line 89, `errors.Errorf("invalid type for plan opts %T",
planOpts)`.  `planOpts` is the first result of the failed two-valued type
assertion `internalConfig.ConvertEntries(data).(map[string]interface{})`,
so it is the zero value of the asserted type — a nil
`map[string]interface{}` — and `%T` always renders its static type
`map[string]interface \x7b\x7d`, never the type of `data`. -/
def planOptsTypeErrMsg : String :=
  "invalid type for plan opts map[string]interface \x7b\x7d"

/-- The lookup chain of `Volume.Validate` (lines 68-90): empty-name check,
pool lookup, team lookup, provisioner lookup, config lookup, type check.
It returns the resolved plan options on success and performs no mutation;
the receiver update of line 91 lives in `Volume.Validate` below. -/
def validateE (env : Env) (v : Volume) : Except VolumeError (List (String × ConfigVal)) :=
  if v.Name = "" then .error .emptyName
  else
    match env.GetPoolByName v.Pool with
    | none => .error (.poolNotFound v.Pool)
    | some pool =>
      match env.GetTeam v.TeamOwner with
      | none => .error (.teamNotFound v.TeamOwner)
      | some _ =>
        match pool.GetProvisioner with
        | none => .error (.provisionerError v.Pool)
        | some prov =>
          match env.configGet (volumePlanKey v.Plan.Name prov) with
          | none => .error (.configNotFound (volumePlanKey v.Plan.Name prov))
          | some data =>
            match ConvertEntries data with
            | .vmap planOpts => .ok planOpts
            | _ => .error (.invalidPlanOpts planOptsTypeErrMsg)

/-- Go: `(v *Volume) Validate()`.  Returns the Go error result together
with the receiver's state after the call: unchanged on every failure path,
and with `v.Plan.Opts = planOpts` (line 91) on success. -/
def Volume.Validate (env : Env) (v : Volume) : Except VolumeError Unit × Volume :=
  match validateE env v with
  | .error e => (.error e, v)
  | .ok planOpts => (.ok (), { v with Plan := { Name := v.Plan.Name, Opts := planOpts } })

/-- The bson `,omitempty` marshalling of `Volume.Opts`: an empty map is
omitted from the stored document, so it reads back as the nil map. -/
def normOpts : Option (List (String × String)) → Option (List (String × String))
  | some [] => none
  | o => o

/-- A `Volume` as the volume collection stores it (after bson marshal /
unmarshal): identical except for the `,omitempty` normalization of `Opts`. -/
def normalizeVolume (v : Volume) : Volume :=
  { v with Opts := normOpts v.Opts }

/-- The durable store of §1/§6: the volume collection (documents keyed by
`_id` = name) and the volume-binds collection (documents keyed by the
composite `VolumeBindID`, with a unique index on `_id`). -/
structure Store where
  volumes : List (String × Volume)
  binds : List VolumeBind

/-- Mongo `FindId` on the volume collection. -/
def lookupVol : List (String × Volume) → String → Option Volume
  | [], _ => none
  | p :: rest, n => if p.1 = n then some p.2 else lookupVol rest n

/-- Mongo `UpsertId` on the volume collection: replace the document whose
`_id` matches, or append a new one. -/
def upsertList : List (String × Volume) → String → Volume → List (String × Volume)
  | [], id, v => [(id, v)]
  | p :: rest, id, v => if p.1 = id then (id, v) :: rest else p :: upsertList rest id v

/-- Does a bind record with this `_id` exist (the unique index probe)? -/
def bindExists : List VolumeBind → VolumeBindID → Bool
  | [], _ => false
  | b :: rest, id => decide (b.ID = id) || bindExists rest id

/-- Mongo `RemoveId` on the binds collection: removes the (unique) document
with this `_id`. -/
def removeBind : List VolumeBind → VolumeBindID → List VolumeBind
  | [], _ => []
  | b :: rest, id => if b.ID = id then rest else b :: removeBind rest id

/-- Go: `(v *Volume) Save()` (lines 95-107): `Validate`, then
`conn.Volumes().UpsertId(v.Name, v)` with the (possibly mutated) receiver.
Returns the error result, the receiver's state, and the store's state. -/
def Volume.Save (env : Env) (st : Store) (v : Volume) :
    Except VolumeError Unit × Volume × Store :=
  match v.Validate env with
  | (.error e, v1) => (.error e, v1, st)
  | (.ok _, v1) =>
    (.ok (), v1, { st with volumes := upsertList st.volumes v1.Name (normalizeVolume v1) })

/-- The message of line 114, `errors.Errorf("invalid bind mode, expected %q
or %q, got %q", BindModeReadOnly, BindModeReadWrite, mode)`. -/
def invalidBindModeMsg (mode : BindMode) : String :=
  "invalid bind mode, expected \"ro\" or \"rw\", got \"" ++ mode ++ "\""

/-- Go: `(v *Volume) BindApp(appName, mountPoint, mode)` (lines 109-134):
normalize empty mode to `rw`, reject other non-`ro`/`rw` modes, then insert
the bind record; a duplicate-key failure of the insert is mapped to
`ErrVolumeAlreadyBound`. -/
def Volume.BindApp (st : Store) (v : Volume) (appName mountPoint : String)
    (mode : BindMode) : Except VolumeError Unit × Store :=
  let mode := if mode = "" then BindModeReadWrite else mode
  if mode ≠ BindModeReadOnly ∧ mode ≠ BindModeReadWrite then
    (.error (.invalidBindMode (invalidBindModeMsg mode)), st)
  else
    let bind : VolumeBind := ⟨⟨appName, mountPoint, v.Name⟩, mode⟩
    if bindExists st.binds bind.ID then (.error .alreadyBound, st)
    else (.ok (), { st with binds := st.binds ++ [bind] })

/-- Go: `(v *Volume) UnbindApp(appName, mountPoint)` (lines 136-151):
`RemoveId` of the composite id; `mgo.ErrNotFound` is mapped to
`ErrVolumeBindNotFound`. -/
def Volume.UnbindApp (st : Store) (v : Volume) (appName mountPoint : String) :
    Except VolumeError Unit × Store :=
  let id : VolumeBindID := ⟨appName, mountPoint, v.Name⟩
  if bindExists st.binds id then (.ok (), { st with binds := removeBind st.binds id })
  else (.error .bindNotFound, st)

/-- Go: `(v *Volume) Binds()` (lines 153-165): every bind record whose
`_id.volume` equals this volume's name. -/
def Volume.Binds (st : Store) (v : Volume) : List VolumeBind :=
  st.binds.filter (fun b => decide (b.ID.Volume = v.Name))

/-- The first query of `ListByApp` (line 174): mongo
`Find(\x7b"_id.app": appName\x7d).Distinct("_id.volume", ...)` — the
distinct volume names among the app's bind records. -/
def bindNamesForApp (st : Store) (appName : String) : List String :=
  ((st.binds.filter (fun b => decide (b.ID.App = appName))).map
    (fun b => b.ID.Volume)).dedup

/-- Go: `ListByApp(appName)` (lines 167-184): the distinct `_id.volume`
values of the app's bind records, then the volume documents whose `_id` is
in that set. -/
def ListByApp (st : Store) (appName : String) : List Volume :=
  (st.volumes.filter (fun p => decide (p.1 ∈ bindNamesForApp st appName))).map
    (fun p => p.2)

/-- Go: `Load(name)` (lines 186-201): `FindId` on the volume collection;
`mgo.ErrNotFound` is mapped to `ErrVolumeNotFound`. -/
def Load (st : Store) (name : String) : Except VolumeError Volume :=
  match lookupVol st.volumes name with
  | some v => .ok v
  | none => .error .volumeNotFound

/-! Concrete environments, volumes and stores used by the witnesses. -/

/-- The spec's §8 scenario environment: pool `p1` resolving to provisioner
`docker`, team `team1`, and config `volume-plans:plan1:docker` holding the
mapping `size ↦ 10Gi`. -/
def envEx : Env :=
  { pools := [{ Name := "p1", Provisioner := some "docker" }],
    teams := ["team1"],
    config := [("volume-plans:plan1:docker",
                ConfigVal.vmap [("size", ConfigVal.str "10Gi")])] }

/-- The spec's §8 scenario volume `v1`. -/
def volEx : Volume :=
  { Name := "v1", Pool := "p1", Plan := { Name := "plan1", Opts := [] },
    TeamOwner := "team1", Status := "", Opts := some [] }

/-- A volume whose pool is unknown to `envEx`. -/
def volBadPool : Volume :=
  { Name := "v2", Pool := "nope", Plan := { Name := "plan1", Opts := [] },
    TeamOwner := "team1", Status := "", Opts := none }

/-- A volume with an empty name. -/
def volNoName : Volume :=
  { Name := "", Pool := "p1", Plan := { Name := "plan1", Opts := [] },
    TeamOwner := "team1", Status := "", Opts := none }

/-- An empty store. -/
def storeEx : Store := { volumes := [], binds := [] }

/-! Helper lemmas about the store primitives. -/

theorem lookupVol_upsert_self (l : List (String × Volume)) (id : String) (v : Volume) :
    lookupVol (upsertList l id v) id = some v := by
  induction l with
  | nil => simp [upsertList, lookupVol]
  | cons p rest ih =>
    by_cases h : p.1 = id <;> simp [upsertList, lookupVol, h, ih]

theorem lookupVol_upsert_other (l : List (String × Volume)) (id k : String) (v : Volume)
    (h : k ≠ id) : lookupVol (upsertList l id v) k = lookupVol l k := by
  induction l with
  | nil =>
    simp only [upsertList, lookupVol]
    rw [if_neg (fun h2 => h h2.symm)]
  | cons p rest ih =>
    by_cases hp : p.1 = id
    · subst hp
      simp only [upsertList, if_pos rfl, lookupVol]
      rw [if_neg (fun h2 => h h2.symm), if_neg (fun h2 => h h2.symm)]
    · simp only [upsertList, if_neg hp, lookupVol]
      by_cases hk : p.1 = k
      · rw [if_pos hk, if_pos hk]
      · rw [if_neg hk, if_neg hk, ih]

theorem bindExists_iff_mem (l : List VolumeBind) (id : VolumeBindID) :
    bindExists l id = true ↔ id ∈ l.map VolumeBind.ID := by
  induction l with
  | nil => simp [bindExists]
  | cons b rest ih =>
    simp only [bindExists, Bool.or_eq_true, decide_eq_true_eq, List.map_cons,
      List.mem_cons, ih]
    rw [eq_comm]

theorem bindExists_append (l1 l2 : List VolumeBind) (id : VolumeBindID) :
    bindExists (l1 ++ l2) id = (bindExists l1 id || bindExists l2 id) := by
  induction l1 with
  | nil => simp [bindExists]
  | cons b rest ih => simp [bindExists, ih, Bool.or_assoc]

theorem removeBind_subset (l : List VolumeBind) (id : VolumeBindID) (b : VolumeBind)
    (h : b ∈ removeBind l id) : b ∈ l := by
  induction l with
  | nil => simp [removeBind] at h
  | cons a rest ih =>
    by_cases ha : a.ID = id
    · simp only [removeBind, if_pos ha] at h
      exact List.mem_cons_of_mem _ h
    · simp only [removeBind, if_neg ha, List.mem_cons] at h
      rcases h with h | h
      · exact h ▸ List.mem_cons_self _ _
      · exact List.mem_cons_of_mem _ (ih h)

theorem removeBind_length (l : List VolumeBind) (id : VolumeBindID)
    (h : bindExists l id = true) : l.length = (removeBind l id).length + 1 := by
  induction l with
  | nil => simp [bindExists] at h
  | cons a rest ih =>
    by_cases ha : a.ID = id
    · simp [removeBind, if_pos ha]
    · simp only [bindExists, Bool.or_eq_true, decide_eq_true_eq] at h
      rcases h with h | h
      · exact absurd h ha
      · simp [removeBind, if_neg ha, ih h]

theorem removeBind_mem_of_ne (l : List VolumeBind) (id : VolumeBindID) (b : VolumeBind)
    (hb : b ∈ l) (hne : b.ID ≠ id) : b ∈ removeBind l id := by
  induction l with
  | nil => simp at hb
  | cons a rest ih =>
    rcases List.mem_cons.mp hb with h | h
    · subst h
      simp [removeBind, if_neg hne]
    · by_cases ha : a.ID = id
      · simpa [removeBind, if_pos ha] using h
      · simp only [removeBind, if_neg ha, List.mem_cons]
        exact Or.inr (ih h)

theorem bindExists_removeBind (l : List VolumeBind) (id : VolumeBindID)
    (hnodup : (l.map VolumeBind.ID).Nodup) :
    bindExists (removeBind l id) id = false := by
  induction l with
  | nil => simp [removeBind, bindExists]
  | cons a rest ih =>
    simp only [List.map_cons, List.nodup_cons] at hnodup
    by_cases ha : a.ID = id
    · simp only [removeBind, if_pos ha]
      rw [Bool.eq_false_iff]
      intro hmem
      exact hnodup.1 (ha ▸ (bindExists_iff_mem rest id).mp hmem)
    · simp [removeBind, if_neg ha, bindExists, ha, ih hnodup.2]

/-! Helper lemmas about `Validate`. -/

theorem validateE_ok_inv (env : Env) (v : Volume) (m : List (String × ConfigVal))
    (h : validateE env v = .ok m) :
    v.Name ≠ "" ∧
    ∃ pool prov data,
      env.GetPoolByName v.Pool = some pool ∧
      env.GetTeam v.TeamOwner = some v.TeamOwner ∧
      pool.GetProvisioner = some prov ∧
      env.configGet (volumePlanKey v.Plan.Name prov) = some data ∧
      ConvertEntries data = ConfigVal.vmap m := by
  unfold validateE at h
  split at h
  next => exact absurd h (by simp)
  next hname =>
    split at h
    next hpool => exact absurd h (by simp)
    next pool hpool =>
      split at h
      next hteam => exact absurd h (by simp)
      next t hteam =>
        split at h
        next hprov => exact absurd h (by simp)
        next prov hprov =>
          split at h
          next hconfig => exact absurd h (by simp)
          next data hconfig =>
            split at h
            next m0 hconv =>
              cases h
              have hteam2 : env.GetTeam v.TeamOwner = some v.TeamOwner := by
                by_cases hmem : v.TeamOwner ∈ env.teams
                · unfold Env.GetTeam
                  rw [if_pos hmem]
                · rw [Env.GetTeam, if_neg hmem] at hteam
                  exact absurd hteam (by simp)
              exact ⟨hname, pool, prov, data, hpool, hteam2, hprov, hconfig, hconv⟩
            next hne hconv => exact absurd h (by simp)

theorem Validate_ok_iff (env : Env) (v : Volume) :
    (v.Validate env).1 = .ok () ↔ ∃ m, validateE env v = .ok m := by
  unfold Volume.Validate
  cases hE : validateE env v <;> simp [hE]

theorem Validate_receiver_of_ok (env : Env) (v : Volume)
    (m : List (String × ConfigVal)) (h : validateE env v = .ok m) :
    (v.Validate env).2 = { v with Plan := { Name := v.Plan.Name, Opts := m } } := by
  unfold Volume.Validate
  rw [h]

theorem Validate_preserves_Name (env : Env) (v : Volume) :
    ((v.Validate env).2).Name = v.Name := by
  unfold Volume.Validate
  cases validateE env v <;> rfl

/-- C4: a Volume with an empty name makes both `Validate` and `Save` fail
with the empty-name error for every environment and every store — so
before any pool, team, provisioner or config lookup can matter and with
nothing persisted (the receiver and the store come back unchanged). -/
theorem Validate_Save_empty_name (env : Env) (st : Store) (v : Volume)
    (h : v.Name = "") :
    v.Validate env = (.error .emptyName, v) ∧
    v.Save env st = (.error .emptyName, v, st) := by
  have h1 : validateE env v = .error .emptyName := by
    unfold validateE
    rw [if_pos h]
  have h2 : v.Validate env = (.error .emptyName, v) := by
    unfold Volume.Validate
    rw [h1]
  refine ⟨h2, ?_⟩
  unfold Volume.Save
  rw [h2]

/-- Witness for C4 at the concrete volume `volNoName` in the scenario
environment and the empty store. -/
theorem Validate_Save_empty_name_witness :
    volNoName.Name = "" ∧
    (volNoName.Validate envEx = (.error .emptyName, volNoName) ∧
      volNoName.Save envEx storeEx = (.error .emptyName, volNoName, storeEx)) :=
  ⟨rfl, Validate_Save_empty_name envEx storeEx volNoName rfl⟩

/-- C10: whenever `Validate` returns an error — empty name, pool, team,
provisioner or plan-config failure — the receiver is unchanged; in
particular `Plan.Opts` keeps its caller-provided value, since the only
receiver mutation sits on the success path after every check. -/
theorem Validate_error_frame (env : Env) (v : Volume) (e : VolumeError)
    (h : (v.Validate env).1 = .error e) :
    (v.Validate env).2 = v := by
  unfold Volume.Validate at h ⊢
  cases hE : validateE env v
  · rfl
  · rw [hE] at h
    exact absurd h (by simp)

/-- Witness for C10 at the concrete volume `volBadPool`, whose pool is
unknown to `envEx`. -/
theorem Validate_error_frame_witness :
    (volBadPool.Validate envEx).1 = .error (.poolNotFound "nope") ∧
    (volBadPool.Validate envEx).2 = volBadPool :=
  ⟨rfl, Validate_error_frame envEx volBadPool (.poolNotFound "nope") rfl⟩

/-- C6: when `Validate` succeeds, the one field of the receiver that
changes is `Plan.Opts`, overwritten — regardless of its caller-provided
value — with the mapping resolved from the configuration entry for
`(plan name, provisioner name)`; the record-update form of the conclusion
shows `Name`, `Pool`, `Plan.Name`, `TeamOwner`, `Status` and `Opts` all
unchanged. -/
theorem Validate_success_frame (env : Env) (v : Volume)
    (h : (v.Validate env).1 = .ok ()) :
    ∃ pool prov data planOpts,
      env.GetPoolByName v.Pool = some pool ∧
      pool.GetProvisioner = some prov ∧
      env.configGet (volumePlanKey v.Plan.Name prov) = some data ∧
      ConvertEntries data = ConfigVal.vmap planOpts ∧
      (v.Validate env).2 = { v with Plan := { Name := v.Plan.Name, Opts := planOpts } } := by
  obtain ⟨m, hE⟩ := (Validate_ok_iff env v).mp h
  obtain ⟨-, pool, prov, data, hpool, -, hprov, hconfig, hconv⟩ :=
    validateE_ok_inv env v m hE
  exact ⟨pool, prov, data, m, hpool, hprov, hconfig, hconv,
    Validate_receiver_of_ok env v m hE⟩

/-- Witness for C6 at the spec's §8 scenario: `volEx` in `envEx`, whose
plan resolves to the mapping `size ↦ 10Gi`. -/
theorem Validate_success_frame_witness :
    (volEx.Validate envEx).1 = .ok () ∧
    (∃ pool prov data planOpts,
      envEx.GetPoolByName volEx.Pool = some pool ∧
      pool.GetProvisioner = some prov ∧
      envEx.configGet (volumePlanKey volEx.Plan.Name prov) = some data ∧
      ConvertEntries data = ConfigVal.vmap planOpts ∧
      (volEx.Validate envEx).2 =
        { volEx with Plan := { Name := volEx.Plan.Name, Opts := planOpts } }) :=
  ⟨rfl, Validate_success_frame envEx volEx rfl⟩

/-- A config environment whose plan entry holds a `bool`, not a mapping:
`volume-plans:plan1:docker = true`. -/
def envBoolCfg : Env :=
  { pools := [{ Name := "p1", Provisioner := some "docker" }],
    teams := ["team1"],
    config := [("volume-plans:plan1:docker", ConfigVal.boolean true)] }

/-- C2: evaluation of `Validate` at a type-mismatched configuration value.
Line 89 formats `%T` of `planOpts` — the zero value left by the failed
type assertion, statically a `map[string]interface \x7b\x7d` — not of the
value received from the lookup.  At the concrete input below the received
value is a `bool`, yet the error message does not mention `bool` at all;
it names `map[string]interface \x7b\x7d` (the expected type) instead, so
the message never carries the concrete type name of the received value. -/
theorem Validate_type_mismatch_message :
    envBoolCfg.configGet (volumePlanKey "plan1" "docker") =
      some (ConfigVal.boolean true) ∧
    GoTypeName (ConvertEntries (ConfigVal.boolean true)) = "bool" ∧
    volEx.Validate envBoolCfg =
      (.error (.invalidPlanOpts planOptsTypeErrMsg), volEx) ∧
    strContains planOptsTypeErrMsg "bool" = false ∧
    strContains planOptsTypeErrMsg (GoTypeName (ConfigVal.vmap [])) = true :=
  ⟨rfl, rfl, rfl, rfl, rfl⟩

/-! Save and the round trip. -/

/-- C5: `Save` is `Validate` followed by an upsert-by-id keyed on the
volume's name.  If validation fails, `Save` returns that error unchanged,
leaves the receiver exactly as `Validate` left it, and writes nothing; if
validation succeeds, the document under the volume's name is created or
fully replaced with the (marshalled) validated receiver, every other
document is untouched, and the binds collection is untouched. -/
theorem Save_spec (env : Env) (st : Store) (v : Volume) :
    (∀ e, (v.Validate env).1 = .error e →
      v.Save env st = (.error e, (v.Validate env).2, st)) ∧
    ((v.Validate env).1 = .ok () →
      (v.Save env st).1 = .ok () ∧
      (v.Save env st).2.1 = (v.Validate env).2 ∧
      lookupVol (v.Save env st).2.2.volumes v.Name =
        some (normalizeVolume (v.Validate env).2) ∧
      (∀ k, k ≠ v.Name →
        lookupVol (v.Save env st).2.2.volumes k = lookupVol st.volumes k) ∧
      (v.Save env st).2.2.binds = st.binds) := by
  constructor
  · intro e he
    unfold Volume.Save
    unfold Volume.Validate at he ⊢
    cases hE : validateE env v
    · rw [hE] at he
      simp only at he
      cases he
      rfl
    · rw [hE] at he
      exact absurd he (by simp)
  · intro hok
    obtain ⟨m, hE⟩ := (Validate_ok_iff env v).mp hok
    have hname : ((v.Validate env).2).Name = v.Name := Validate_preserves_Name env v
    unfold Volume.Save
    unfold Volume.Validate
    rw [hE]
    unfold Volume.Validate at hname
    rw [hE] at hname
    refine ⟨rfl, rfl, ?_, ?_, rfl⟩
    · simp only
      rw [show ({ v with Plan := { Name := v.Plan.Name, Opts := m } } : Volume).Name = v.Name
        from rfl] at *
      exact hname ▸ lookupVol_upsert_self st.volumes _ _
    · intro k hk
      exact lookupVol_upsert_other st.volumes _ k _ (by simpa using hk)

/-- C9: round trip.  If `Save` accepts a volume, loading the saved name
returns a record equal to the (validated, possibly mutated) saved volume
on every field, except that the free-form `Opts` map is normalized — bson
`,omitempty` drops it when empty; and `Load` of a name with no stored
record fails with `ErrVolumeNotFound`. -/
theorem Save_Load_roundtrip (env : Env) (st : Store) (v : Volume)
    (h : (v.Save env st).1 = .ok ()) :
    Load (v.Save env st).2.2 ((v.Save env st).2.1).Name =
      .ok { (v.Save env st).2.1 with Opts := normOpts ((v.Save env st).2.1).Opts } ∧
    (∀ st0 name, lookupVol st0.volumes name = none →
      Load st0 name = .error .volumeNotFound) := by
  constructor
  · have hok : (v.Validate env).1 = .ok () := by
      unfold Volume.Save at h
      cases hV : v.Validate env with
      | mk r v1 =>
        cases r with
        | error e => rw [hV] at h; exact absurd h (by simp)
        | ok u => rfl
    obtain ⟨m, hE⟩ := (Validate_ok_iff env v).mp hok
    unfold Volume.Save Volume.Validate
    rw [hE]
    simp only
    unfold Load
    rw [lookupVol_upsert_self]
    rfl
  · intro st0 name h0
    unfold Load
    rw [h0]

/-- Witness for C9: saving `volEx` (whose `Opts` is the empty map) in the
empty store and loading `v1` back. -/
theorem Save_Load_roundtrip_witness :
    (volEx.Save envEx storeEx).1 = .ok () ∧
    (Load (volEx.Save envEx storeEx).2.2 ((volEx.Save envEx storeEx).2.1).Name =
      .ok { (volEx.Save envEx storeEx).2.1 with
              Opts := normOpts ((volEx.Save envEx storeEx).2.1).Opts } ∧
    (∀ st0 name, lookupVol st0.volumes name = none →
      Load st0 name = .error .volumeNotFound)) :=
  ⟨rfl, Save_Load_roundtrip envEx storeEx volEx rfl⟩

/-! BindApp and UnbindApp. -/

theorem BindApp_ok_inv (st : Store) (v : Volume) (app mp : String) (mode : BindMode)
    (h : (v.BindApp st app mp mode).1 = .ok ()) :
    bindExists st.binds ⟨app, mp, v.Name⟩ = false ∧
    (v.BindApp st app mp mode).2.binds =
      st.binds ++
        [⟨⟨app, mp, v.Name⟩, if mode = "" then BindModeReadWrite else mode⟩] := by
  by_cases hb : bindExists st.binds ⟨app, mp, v.Name⟩ = true
  · exfalso
    by_cases hm : mode = ""
    · subst hm
      simp [Volume.BindApp, BindModeReadOnly, BindModeReadWrite, hb] at h
    · by_cases hro : mode = BindModeReadOnly
      · subst hro
        simp [Volume.BindApp, BindModeReadOnly, BindModeReadWrite, hb] at h
      · by_cases hrw : mode = BindModeReadWrite
        · subst hrw
          simp [Volume.BindApp, BindModeReadOnly, BindModeReadWrite, hb] at h
        · simp [Volume.BindApp, hm, hro, hrw] at h
  · have hb2 : bindExists st.binds ⟨app, mp, v.Name⟩ = false :=
      Bool.not_eq_true _ ▸ hb
    refine ⟨hb2, ?_⟩
    by_cases hm : mode = ""
    · subst hm
      simp [Volume.BindApp, BindModeReadOnly, BindModeReadWrite, hb2]
    · by_cases hro : mode = BindModeReadOnly
      · subst hro
        simp [Volume.BindApp, BindModeReadOnly, BindModeReadWrite, hb2]
      · by_cases hrw : mode = BindModeReadWrite
        · subst hrw
          simp [Volume.BindApp, BindModeReadOnly, BindModeReadWrite, hb2]
        · exfalso
          simp [Volume.BindApp, hm, hro, hrw] at h

/-- C1: the bind-uniqueness protocol.  On a store with no record for the
triple `(app, mountPoint, volume name)` and a valid mode, the first
`BindApp` succeeds and appends exactly one bind record; composite-key
uniqueness of the binds collection is preserved; and a second `BindApp`
with the identical triple hits the duplicate-key path and fails with the
already-bound error — leaving the store unchanged — rather than creating
a second record or surfacing a generic storage fault. -/
theorem BindApp_unique (st : Store) (v : Volume) (app mp : String) (mode : BindMode)
    (hmode : mode = "" ∨ mode = BindModeReadOnly ∨ mode = BindModeReadWrite)
    (hfree : bindExists st.binds ⟨app, mp, v.Name⟩ = false) :
    (v.BindApp st app mp mode).1 = .ok () ∧
    (v.BindApp st app mp mode).2.binds =
      st.binds ++
        [⟨⟨app, mp, v.Name⟩, if mode = "" then BindModeReadWrite else mode⟩] ∧
    ((st.binds.map VolumeBind.ID).Nodup →
      ((v.BindApp st app mp mode).2.binds.map VolumeBind.ID).Nodup) ∧
    (∀ mode2, mode2 = "" ∨ mode2 = BindModeReadOnly ∨ mode2 = BindModeReadWrite →
      v.BindApp (v.BindApp st app mp mode).2 app mp mode2 =
        (.error .alreadyBound, (v.BindApp st app mp mode).2)) := by
  have hbinds :
      ∀ md, md = "" ∨ md = BindModeReadOnly ∨ md = BindModeReadWrite →
        ∀ st1 : Store, bindExists st1.binds ⟨app, mp, v.Name⟩ = false →
          v.BindApp st1 app mp md =
            (.ok (), { st1 with binds := st1.binds ++
              [⟨⟨app, mp, v.Name⟩, if md = "" then BindModeReadWrite else md⟩] }) := by
    intro md hmd st1 hfree1
    rcases hmd with h | h | h <;> subst h <;>
      simp [Volume.BindApp, BindModeReadOnly, BindModeReadWrite, hfree1]
  have hdup :
      ∀ md, md = "" ∨ md = BindModeReadOnly ∨ md = BindModeReadWrite →
        ∀ st1 : Store, bindExists st1.binds ⟨app, mp, v.Name⟩ = true →
          v.BindApp st1 app mp md = (.error .alreadyBound, st1) := by
    intro md hmd st1 hex
    rcases hmd with h | h | h <;> subst h <;>
      simp [Volume.BindApp, BindModeReadOnly, BindModeReadWrite, hex]
  have h1 := hbinds mode hmode st hfree
  have hex1 : bindExists (v.BindApp st app mp mode).2.binds ⟨app, mp, v.Name⟩ = true := by
    rw [h1]
    simp only [bindExists_append]
    simp [bindExists]
  refine ⟨by rw [h1], by rw [h1], ?_, ?_⟩
  · intro hnd
    rw [h1]
    simp only [List.map_append, List.map_cons, List.map_nil]
    rw [List.nodup_append]
    refine ⟨hnd, List.nodup_singleton _, ?_⟩
    intro x hx hy
    simp only [List.mem_singleton] at hy
    subst hy
    exact absurd ((bindExists_iff_mem st.binds _).mpr hx) (by simp [hfree])
  · intro mode2 hmode2
    exact hdup mode2 hmode2 _ hex1

/-- Witness for C1: binding `app1` at `/data` in mode `rw` on the empty
store. -/
theorem BindApp_unique_witness :
    (("rw" : BindMode) = "" ∨ ("rw" : BindMode) = BindModeReadOnly ∨
      ("rw" : BindMode) = BindModeReadWrite) ∧
    bindExists storeEx.binds ⟨"app1", "/data", volEx.Name⟩ = false ∧
    ((volEx.BindApp storeEx "app1" "/data" "rw").1 = .ok () ∧
    (volEx.BindApp storeEx "app1" "/data" "rw").2.binds =
      storeEx.binds ++
        [⟨⟨"app1", "/data", volEx.Name⟩,
          if ("rw" : BindMode) = "" then BindModeReadWrite else "rw"⟩] ∧
    ((storeEx.binds.map VolumeBind.ID).Nodup →
      ((volEx.BindApp storeEx "app1" "/data" "rw").2.binds.map VolumeBind.ID).Nodup) ∧
    (∀ mode2, mode2 = "" ∨ mode2 = BindModeReadOnly ∨ mode2 = BindModeReadWrite →
      volEx.BindApp (volEx.BindApp storeEx "app1" "/data" "rw").2 "app1" "/data" mode2 =
        (.error .alreadyBound, (volEx.BindApp storeEx "app1" "/data" "rw").2))) :=
  ⟨Or.inr (Or.inr rfl), rfl,
    BindApp_unique storeEx volEx "app1" "/data" "rw" (Or.inr (Or.inr rfl)) rfl⟩

/-- C7: `BindApp` normalizes the empty mode to read-write (the calls with
`""` and with `rw` are the same function of the store); any other mode
outside `ro`/`rw` fails with the invalid-bind-mode error whose message
carries both valid values and the offending one, and the store — hence
the binds collection — is left unchanged, so no record is created on that
failure path. -/
theorem BindApp_invalid_mode (st : Store) (v : Volume) (app mp : String) (mode : BindMode)
    (h0 : mode ≠ "") (h1 : mode ≠ BindModeReadOnly) (h2 : mode ≠ BindModeReadWrite) :
    v.BindApp st app mp mode =
      (.error (.invalidBindMode
        ("invalid bind mode, expected \"ro\" or \"rw\", got \"" ++ mode ++ "\"")), st) ∧
    (v.BindApp st app mp mode).2 = st ∧
    v.BindApp st app mp "" = v.BindApp st app mp BindModeReadWrite := by
  have hmain : v.BindApp st app mp mode =
      (.error (.invalidBindMode
        ("invalid bind mode, expected \"ro\" or \"rw\", got \"" ++ mode ++ "\"")), st) := by
    simp [Volume.BindApp, h0, h1, h2, invalidBindModeMsg]
  exact ⟨hmain, by rw [hmain], rfl⟩

/-- Witness for C7 at the spec's §8 scenario mode `xx`. -/
theorem BindApp_invalid_mode_witness :
    ("xx" : BindMode) ≠ "" ∧ ("xx" : BindMode) ≠ BindModeReadOnly ∧
    ("xx" : BindMode) ≠ BindModeReadWrite ∧
    (volEx.BindApp storeEx "app1" "/data" "xx" =
      (.error (.invalidBindMode
        ("invalid bind mode, expected \"ro\" or \"rw\", got \"" ++ "xx" ++ "\"")), storeEx) ∧
    (volEx.BindApp storeEx "app1" "/data" "xx").2 = storeEx ∧
    volEx.BindApp storeEx "app1" "/data" "" =
      volEx.BindApp storeEx "app1" "/data" BindModeReadWrite) :=
  ⟨by decide, by decide, by decide,
    BindApp_invalid_mode storeEx volEx "app1" "/data" "xx"
      (by decide) (by decide) (by decide)⟩

theorem nodup_append_bind (l : List VolumeBind) (b : VolumeBind)
    (hnd : (l.map VolumeBind.ID).Nodup) (hfree : bindExists l b.ID = false) :
    ((l ++ [b]).map VolumeBind.ID).Nodup := by
  simp only [List.map_append, List.map_cons, List.map_nil]
  rw [List.nodup_append]
  refine ⟨hnd, List.nodup_singleton _, ?_⟩
  intro x hx hy
  simp only [List.mem_singleton] at hy
  subst hy
  exact absurd ((bindExists_iff_mem l _).mpr hx) (by simp [hfree])

/-- C8: `UnbindApp` deletes exactly the bind record keyed
`(app, mountPoint, volume name)`: with no such record it fails with the
bind-not-found error and changes nothing; with the record present it
succeeds, removes exactly that one record (one fewer record, every
survivor was already there, every other record survives), and a second
identical call fails with bind-not-found; and after a successful
`BindApp` with those coordinates the first `UnbindApp` succeeds while the
next one fails with bind-not-found rather than succeeding silently. -/
theorem UnbindApp_spec (st : Store) (v : Volume) (app mp : String)
    (hnodup : (st.binds.map VolumeBind.ID).Nodup) :
    (bindExists st.binds ⟨app, mp, v.Name⟩ = false →
      v.UnbindApp st app mp = (.error .bindNotFound, st)) ∧
    (bindExists st.binds ⟨app, mp, v.Name⟩ = true →
      (v.UnbindApp st app mp).1 = .ok () ∧
      st.binds.length = (v.UnbindApp st app mp).2.binds.length + 1 ∧
      (∀ b, b ∈ (v.UnbindApp st app mp).2.binds → b ∈ st.binds) ∧
      (∀ b, b ∈ st.binds → b.ID ≠ ⟨app, mp, v.Name⟩ →
        b ∈ (v.UnbindApp st app mp).2.binds) ∧
      bindExists (v.UnbindApp st app mp).2.binds ⟨app, mp, v.Name⟩ = false ∧
      v.UnbindApp (v.UnbindApp st app mp).2 app mp =
        (.error .bindNotFound, (v.UnbindApp st app mp).2)) ∧
    (∀ mode, (v.BindApp st app mp mode).1 = .ok () →
      (v.UnbindApp (v.BindApp st app mp mode).2 app mp).1 = .ok () ∧
      (v.UnbindApp (v.UnbindApp (v.BindApp st app mp mode).2 app mp).2 app mp).1 =
        .error .bindNotFound) := by
  refine ⟨?_, ?_, ?_⟩
  · intro hf
    simp [Volume.UnbindApp, hf]
  · intro ht
    have h1 : v.UnbindApp st app mp =
        (.ok (), { st with binds := removeBind st.binds ⟨app, mp, v.Name⟩ }) := by
      simp [Volume.UnbindApp, ht]
    have hrm : bindExists (removeBind st.binds ⟨app, mp, v.Name⟩) ⟨app, mp, v.Name⟩ = false :=
      bindExists_removeBind st.binds _ hnodup
    rw [h1]
    refine ⟨rfl, removeBind_length st.binds _ ht,
      fun b hb => removeBind_subset st.binds _ b hb,
      fun b hb hne => removeBind_mem_of_ne st.binds _ b hb hne, hrm, ?_⟩
    simp [Volume.UnbindApp, hrm]
  · intro mode hok
    obtain ⟨hfree, hbinds⟩ := BindApp_ok_inv st v app mp mode hok
    have hex1 : bindExists (v.BindApp st app mp mode).2.binds ⟨app, mp, v.Name⟩ = true := by
      rw [hbinds, bindExists_append]
      simp [bindExists]
    have h2 : v.UnbindApp (v.BindApp st app mp mode).2 app mp =
        (.ok (), { (v.BindApp st app mp mode).2 with
          binds := removeBind (v.BindApp st app mp mode).2.binds ⟨app, mp, v.Name⟩ }) := by
      simp [Volume.UnbindApp, hex1]
    have hnd1 : ((v.BindApp st app mp mode).2.binds.map VolumeBind.ID).Nodup := by
      rw [hbinds]
      exact nodup_append_bind _ _ hnodup hfree
    have hrm1 : bindExists
        (removeBind (v.BindApp st app mp mode).2.binds ⟨app, mp, v.Name⟩)
        ⟨app, mp, v.Name⟩ = false :=
      bindExists_removeBind _ _ hnd1
    refine ⟨by rw [h2], ?_⟩
    rw [h2]
    simp [Volume.UnbindApp, hrm1]

/-- A store holding exactly one bind record: `v1` mounted by `app1` at
`/data` in mode `rw`. -/
def storeBound : Store :=
  { volumes := [], binds := [⟨⟨"app1", "/data", "v1"⟩, "rw"⟩] }

/-- Witness for C8 on `storeBound`, whose single record is the bind of
`volEx` by `app1` at `/data`. -/
theorem UnbindApp_spec_witness :
    (storeBound.binds.map VolumeBind.ID).Nodup ∧
    ((bindExists storeBound.binds ⟨"app1", "/data", volEx.Name⟩ = false →
      volEx.UnbindApp storeBound "app1" "/data" = (.error .bindNotFound, storeBound)) ∧
    (bindExists storeBound.binds ⟨"app1", "/data", volEx.Name⟩ = true →
      (volEx.UnbindApp storeBound "app1" "/data").1 = .ok () ∧
      storeBound.binds.length =
        (volEx.UnbindApp storeBound "app1" "/data").2.binds.length + 1 ∧
      (∀ b, b ∈ (volEx.UnbindApp storeBound "app1" "/data").2.binds →
        b ∈ storeBound.binds) ∧
      (∀ b, b ∈ storeBound.binds → b.ID ≠ ⟨"app1", "/data", volEx.Name⟩ →
        b ∈ (volEx.UnbindApp storeBound "app1" "/data").2.binds) ∧
      bindExists (volEx.UnbindApp storeBound "app1" "/data").2.binds
        ⟨"app1", "/data", volEx.Name⟩ = false ∧
      volEx.UnbindApp (volEx.UnbindApp storeBound "app1" "/data").2 "app1" "/data" =
        (.error .bindNotFound, (volEx.UnbindApp storeBound "app1" "/data").2)) ∧
    (∀ mode, (volEx.BindApp storeBound "app1" "/data" mode).1 = .ok () →
      (volEx.UnbindApp (volEx.BindApp storeBound "app1" "/data" mode).2
        "app1" "/data").1 = .ok () ∧
      (volEx.UnbindApp (volEx.UnbindApp
        (volEx.BindApp storeBound "app1" "/data" mode).2 "app1" "/data").2
        "app1" "/data").1 = .error .bindNotFound)) :=
  ⟨by simp [storeBound], UnbindApp_spec storeBound volEx "app1" "/data"
    (by simp [storeBound])⟩

theorem pair_eq_of_keys_nodup {l : List (String × Volume)}
    (h : (l.map Prod.fst).Nodup) {p q : String × Volume}
    (hp : p ∈ l) (hq : q ∈ l) (he : p.1 = q.1) : p = q := by
  induction l with
  | nil => simp at hp
  | cons a rest ih =>
    simp only [List.map_cons, List.nodup_cons] at h
    rcases List.mem_cons.mp hp with hpa | hpr
    · rcases List.mem_cons.mp hq with hqa | hqr
      · rw [hpa, hqa]
      · exfalso
        have hq1 : q.1 ∈ rest.map Prod.fst := List.mem_map_of_mem Prod.fst hqr
        rw [hpa] at he
        exact h.1 (he ▸ hq1)
    · rcases List.mem_cons.mp hq with hqa | hqr
      · exfalso
        have hp1 : p.1 ∈ rest.map Prod.fst := List.mem_map_of_mem Prod.fst hpr
        rw [hqa] at he
        exact h.1 (he ▸ hp1)
      · exact ih h.2 hpr hqr

theorem mem_bindNamesForApp (st : Store) (appName n : String) :
    n ∈ bindNamesForApp st appName ↔
      ∃ b ∈ st.binds, b.ID.App = appName ∧ b.ID.Volume = n := by
  unfold bindNamesForApp
  rw [List.mem_dedup]
  simp only [List.mem_map, List.mem_filter, decide_eq_true_eq]
  constructor
  · rintro ⟨b, ⟨hbmem, hbapp⟩, hbvol⟩
    exact ⟨b, hbmem, hbapp, hbvol⟩
  · rintro ⟨b, hbmem, hbapp, hbvol⟩
    exact ⟨b, ⟨hbmem, hbapp⟩, hbvol⟩

/-- C3: on a well-formed volume collection (distinct `_id`s, each document
named by its `_id`), `ListByApp` returns exactly the volumes stored in the
collection that some bind record of the app references: a volume bound at
two mount points appears once (the result has no duplicates), an app with
no bind records yields the empty list rather than an error, and a name
referenced by a bind but absent from the volume collection contributes
nothing — it is dropped with no error, as the membership description and
the totality of the function show. -/
theorem ListByApp_spec (st : Store) (appName : String)
    (hkeys : (st.volumes.map Prod.fst).Nodup)
    (hnames : ∀ p ∈ st.volumes, (p.2).Name = p.1) :
    (∀ w, w ∈ ListByApp st appName ↔
      ((w.Name, w) ∈ st.volumes ∧
        ∃ b ∈ st.binds, b.ID.App = appName ∧ b.ID.Volume = w.Name)) ∧
    ((∀ b ∈ st.binds, b.ID.App ≠ appName) → ListByApp st appName = []) ∧
    (ListByApp st appName).Nodup := by
  have hmem : ∀ w, w ∈ ListByApp st appName ↔
      ((w.Name, w) ∈ st.volumes ∧
        ∃ b ∈ st.binds, b.ID.App = appName ∧ b.ID.Volume = w.Name) := by
    intro w
    unfold ListByApp
    simp only [List.mem_map, List.mem_filter, decide_eq_true_eq]
    constructor
    · rintro ⟨p, ⟨hpmem, hpnames⟩, hpw⟩
      have hpn : (p.2).Name = p.1 := hnames p hpmem
      subst hpw
      constructor
      · rw [hpn]
        exact Prod.mk.eta ▸ hpmem
      · rw [hpn]
        exact (mem_bindNamesForApp st appName p.1).mp hpnames
    · rintro ⟨hwmem, b, hbmem, hbapp, hbvol⟩
      exact ⟨(w.Name, w), ⟨hwmem,
        (mem_bindNamesForApp st appName w.Name).mpr ⟨b, hbmem, hbapp, hbvol⟩⟩, rfl⟩
  refine ⟨hmem, ?_, ?_⟩
  · intro hnob
    rw [List.eq_nil_iff_forall_not_mem]
    intro w hw
    obtain ⟨-, b, hbmem, hbapp, -⟩ := (hmem w).mp hw
    exact hnob b hbmem hbapp
  · unfold ListByApp
    have hsubl :
        (st.volumes.filter (fun p => decide (p.1 ∈ bindNamesForApp st appName))).Sublist
          st.volumes := List.filter_sublist _
    have hfkeys :
        ((st.volumes.filter
          (fun p => decide (p.1 ∈ bindNamesForApp st appName))).map Prod.fst).Nodup :=
      (hsubl.map Prod.fst).nodup hkeys
    have hfnd :
        (st.volumes.filter (fun p => decide (p.1 ∈ bindNamesForApp st appName))).Nodup :=
      List.Nodup.of_map Prod.fst hfkeys
    refine List.Nodup.map_on ?_ hfnd
    intro x hx y hy hxy
    have hx0 := hsubl.mem hx
    have hy0 := hsubl.mem hy
    have h1 : x.1 = y.1 := by
      rw [← hnames x hx0, ← hnames y hy0, hxy]
    exact pair_eq_of_keys_nodup hfkeys hx hy h1

/-- A store for the `ListByApp` witness: one stored volume `v1` and three
bind records — `v1` bound by `app1` at two mount points, plus a bind of
`app1` to a dangling volume name `ghost` absent from the collection. -/
def volStored : Volume :=
  { Name := "v1", Pool := "p1", Plan := { Name := "plan1", Opts := [] },
    TeamOwner := "team1", Status := "", Opts := none }

/-- The store itself: `volStored` under its name, plus the three binds. -/
def storeList : Store :=
  { volumes := [("v1", volStored)],
    binds := [⟨⟨"app1", "/data", "v1"⟩, "rw"⟩,
              ⟨⟨"app1", "/backup", "v1"⟩, "ro"⟩,
              ⟨⟨"app1", "/ghost", "ghost"⟩, "rw"⟩] }

/-- Witness for C3 on `storeList`: duplicates collapse and the dangling
`ghost` reference is dropped. -/
theorem ListByApp_spec_witness :
    (storeList.volumes.map Prod.fst).Nodup ∧
    (∀ p ∈ storeList.volumes, (p.2).Name = p.1) ∧
    ((∀ w, w ∈ ListByApp storeList "app1" ↔
      ((w.Name, w) ∈ storeList.volumes ∧
        ∃ b ∈ storeList.binds, b.ID.App = "app1" ∧ b.ID.Volume = w.Name)) ∧
    ((∀ b ∈ storeList.binds, b.ID.App ≠ "app1") → ListByApp storeList "app1" = []) ∧
    (ListByApp storeList "app1").Nodup) :=
  ⟨by simp [storeList], by simp [storeList, volStored],
    ListByApp_spec storeList "app1" (by simp [storeList])
      (by simp [storeList, volStored])⟩
